import Mathlib

/-!
Verification of the axis-store / comment-generator core of `src/src/App.tsx`
(a radar-chart skill profile editor with an auto-generated text report).

JavaScript numbers are modelled by `JSNum`: either `nan` or an exact rational
given as a numerator/positive-denominator pair (`QJ`).  The pair representation
keeps every operation kernel-computable; `toQ` maps a pair to the Mathlib
rational it denotes, and all order reasoning happens through `toQ`.
`Math.min`/`Math.max`/`<`/`>`/`>=`/`+` propagate or reject `nan` exactly as in
JavaScript (any comparison with `NaN` is false, any arithmetic with `NaN` is
`NaN`).
-/

/-- An exact rational: numerator over a positive denominator. -/
structure QJ where
  n : Int
  d : ℕ+
deriving DecidableEq

/-- A JavaScript number: `NaN`, or an exact rational value. -/
inductive JSNum where
  | nan : JSNum
  | num : QJ → JSNum
deriving DecidableEq

/-- The rational value denoted by a `QJ` pair. -/
def toQ (x : QJ) : ℚ := (x.n : ℚ) / ((x.d : ℕ) : ℚ)

/-- Strict comparison of two pairs by cross multiplication. -/
def qltB (x y : QJ) : Bool :=
  decide (x.n * ((y.d : ℕ) : Int) < y.n * ((x.d : ℕ) : Int))

/-- Non-strict comparison of two pairs by cross multiplication. -/
def qleB (x y : QJ) : Bool :=
  decide (x.n * ((y.d : ℕ) : Int) ≤ y.n * ((x.d : ℕ) : Int))

/-- An integer JavaScript number. -/
def jint (i : Int) : JSNum := JSNum.num ⟨i, 1⟩

/-- JavaScript `<` (false whenever an operand is `NaN`). -/
def jsLtB : JSNum → JSNum → Bool
  | JSNum.num a, JSNum.num b => qltB a b
  | _, _ => false

/-- JavaScript `>` (false whenever an operand is `NaN`). -/
def jsGtB : JSNum → JSNum → Bool
  | JSNum.num a, JSNum.num b => qltB b a
  | _, _ => false

/-- JavaScript `>=` (false whenever an operand is `NaN`). -/
def jsGeB : JSNum → JSNum → Bool
  | JSNum.num a, JSNum.num b => qleB b a
  | _, _ => false

/-- JavaScript `<=` (false whenever an operand is `NaN`). -/
def jsLeB : JSNum → JSNum → Bool
  | JSNum.num a, JSNum.num b => qleB a b
  | _, _ => false

/-- JavaScript `Math.min` (NaN-propagating). -/
def jsMin : JSNum → JSNum → JSNum
  | JSNum.num a, JSNum.num b => if qltB a b then JSNum.num a else JSNum.num b
  | _, _ => JSNum.nan

/-- JavaScript `Math.max` (NaN-propagating). -/
def jsMax : JSNum → JSNum → JSNum
  | JSNum.num a, JSNum.num b => if qltB a b then JSNum.num b else JSNum.num a
  | _, _ => JSNum.nan

/-- JavaScript `+` on numbers (NaN-propagating). -/
def jsAdd : JSNum → JSNum → JSNum
  | JSNum.num a, JSNum.num b =>
      JSNum.num ⟨a.n * ((b.d : ℕ) : Int) + b.n * ((a.d : ℕ) : Int), a.d * b.d⟩
  | _, _ => JSNum.nan

/-- Source line 5: `const clamp = (n, min = 0, max = 5) => Math.max(min, Math.min(max, n))`.
Every call site in the file uses the default bounds 0 and 5. -/
def clamp (n : JSNum) : JSNum := jsMax (jint 0) (jsMin (jint 5) n)

theorem dq_pos (x : QJ) : (0 : ℚ) < ((x.d : ℕ) : ℚ) := by
  exact_mod_cast x.d.pos

theorem qltB_eq (x y : QJ) : qltB x y = decide (toQ x < toQ y) := by
  unfold qltB toQ
  simp only [decide_eq_decide]
  rw [div_lt_div_iff₀ (dq_pos x) (dq_pos y)]
  constructor
  · intro h; exact_mod_cast h
  · intro h; exact_mod_cast h

theorem qleB_eq (x y : QJ) : qleB x y = decide (toQ x ≤ toQ y) := by
  unfold qleB toQ
  simp only [decide_eq_decide]
  rw [div_le_div_iff₀ (dq_pos x) (dq_pos y)]
  constructor
  · intro h; exact_mod_cast h
  · intro h; exact_mod_cast h

theorem toQ_int (i : Int) : toQ ⟨i, 1⟩ = (i : ℚ) := by
  unfold toQ
  norm_num

theorem toQ_zero : toQ ⟨0, 1⟩ = 0 := by rw [toQ_int]; norm_num

theorem toQ_five : toQ ⟨5, 1⟩ = 5 := by rw [toQ_int]; norm_num

theorem jsMin_num (a b : QJ) :
    jsMin (JSNum.num a) (JSNum.num b) =
      if toQ a < toQ b then JSNum.num a else JSNum.num b := by
  show (if qltB a b then JSNum.num a else JSNum.num b) = _
  rw [qltB_eq]
  by_cases h : toQ a < toQ b
  · rw [if_pos (decide_eq_true h), if_pos h]
  · rw [if_neg (by simpa using h), if_neg h]

theorem jsMax_num (a b : QJ) :
    jsMax (JSNum.num a) (JSNum.num b) =
      if toQ a < toQ b then JSNum.num b else JSNum.num a := by
  show (if qltB a b then JSNum.num b else JSNum.num a) = _
  rw [qltB_eq]
  by_cases h : toQ a < toQ b
  · rw [if_pos (decide_eq_true h), if_pos h]
  · rw [if_neg (by simpa using h), if_neg h]

/-- `clamp` on an actual number yields an actual number whose value is
`max 0 (min 5 v)`; moreover the result pair is `⟨0,1⟩`, `⟨5,1⟩`, or the
input pair itself. -/
theorem clamp_num (q : QJ) :
    (toQ q ≤ 0 ∧ clamp (JSNum.num q) = jint 0) ∨
    (5 < toQ q ∧ clamp (JSNum.num q) = jint 5) ∨
    (0 < toQ q ∧ toQ q ≤ 5 ∧ clamp (JSNum.num q) = JSNum.num q) := by
  unfold clamp jint
  rw [jsMin_num, toQ_five]
  by_cases h5 : (5 : ℚ) < toQ q
  · right; left
    refine ⟨h5, ?_⟩
    rw [if_pos h5, jsMax_num, toQ_zero, toQ_five, if_pos (by norm_num)]
  · rw [if_neg h5, jsMax_num, toQ_zero]
    by_cases h0 : (0 : ℚ) < toQ q
    · right; right
      rw [if_pos h0]
      exact ⟨h0, not_lt.mp h5, rfl⟩
    · left
      rw [if_neg h0]
      exact ⟨not_lt.mp h0, rfl⟩

theorem clamp_nan : clamp JSNum.nan = JSNum.nan := rfl

/-- The value of a clamped number is `max 0 (min 5 v)`. -/
theorem toQ_clamp (q : QJ) :
    ∃ r : QJ, clamp (JSNum.num q) = JSNum.num r ∧ toQ r = max 0 (min 5 (toQ q)) := by
  rcases clamp_num q with ⟨h, hc⟩ | ⟨h, hc⟩ | ⟨h0, h5, hc⟩
  · refine ⟨⟨0, 1⟩, hc, ?_⟩
    rw [toQ_int]
    rw [min_eq_right (le_trans h (by norm_num)), max_eq_left h]
    norm_num
  · refine ⟨⟨5, 1⟩, hc, ?_⟩
    rw [toQ_int]
    rw [min_eq_left h.le, max_eq_right (by norm_num : (0:ℚ) ≤ 5)]
    norm_num
  · refine ⟨q, hc, ?_⟩
    rw [min_eq_right h5, max_eq_right h0.le]

/-- `clamp` is idempotent, on the nose (same pair representation). -/
theorem clamp_clamp (v : JSNum) : clamp (clamp v) = clamp v := by
  cases v with
  | nan => rfl
  | num q =>
    rcases clamp_num q with ⟨_, hc⟩ | ⟨_, hc⟩ | ⟨h0, h5, hc⟩
    · rw [hc]; decide
    · rw [hc]; decide
    · rw [hc, hc]

/-!
String rendering of numbers.

`toFixed1` follows the ECMAScript `Number.prototype.toFixed(1)` algorithm on
exact rationals: for a non-negative value pick the integer `n` closest to
`10·x` (ties to the larger `n`, i.e. `n = ⌊10·x + 1/2⌋`), and print
`n/10 "." n%10`; a negative value is printed as `"-"` followed by the
rendering of its negation; `NaN` prints as `"NaN"`.

`numToString` models JavaScript number-to-string template interpolation
(`${a.value}`) on exact rationals: the integer part, then a `"."` and the
digits of the fractional part when it is non-zero (up to 20 fractional
digits, enough for every value a double renders in fixed notation).
-/

/-- ECMAScript `toFixed(1)` on an exact rational (see module comment). -/
def toFixed1 : JSNum → String
  | JSNum.nan => "NaN"
  | JSNum.num q =>
      let s : String := if q.n < 0 then "-" else ""
      let a : Int := if q.n < 0 then -q.n else q.n
      let d : Int := ((q.d : ℕ) : Int)
      let m : Nat := (Int.fdiv (20 * a + d) (2 * d)).toNat
      s ++ toString (m / 10) ++ "." ++ toString (m % 10)

/-- Decimal digits of the proper fraction `r/d` (`0 ≤ r < d`), with fuel. -/
def fracDigits : Nat → Nat → Nat → String
  | 0, _, _ => ""
  | fuel+1, r, d =>
      let digit := r * 10 / d
      let r2 := r * 10 % d
      toString digit ++ (if r2 = 0 then "" else fracDigits fuel r2 d)

/-- Decimal rendering of the non-negative rational `a/d`. -/
def natPartsToString (a d : Nat) : String :=
  if a % d = 0 then toString (a / d)
  else toString (a / d) ++ "." ++ fracDigits 20 (a % d) d

/-- JavaScript number-to-string (see module comment). -/
def numToString : JSNum → String
  | JSNum.nan => "NaN"
  | JSNum.num q =>
      if q.n < 0 then "-" ++ natPartsToString (-q.n).toNat (q.d : ℕ)
      else natPartsToString q.n.toNat (q.d : ℕ)

/-- JavaScript `Array.prototype.join(sep)`. -/
def joinSep (sep : String) : List String → String
  | [] => ""
  | [x] => x
  | x :: y :: rest => x ++ sep ++ joinSep sep (y :: rest)

/-!
The data model.  `Axis` is the store's record (`{ id, label, value }`,
source lines 8-14 and 50-53).  `GAxis` is the view `generateComment`
declares for its parameter (`{ label; value }[]`, source line 24); the
function never reads the `id` field.
-/

/-- A stored axis record: `{ id, label, value }`. -/
structure Axis where
  id : String
  label : String
  value : JSNum
deriving DecidableEq

/-- The `{ label, value }` view of an axis consumed by `generateComment`. -/
structure GAxis where
  label : String
  value : JSNum
deriving DecidableEq

/-- The view of a stored axis that `generateComment` can observe. -/
def axisView (a : Axis) : GAxis := ⟨a.label, a.value⟩

/-!
`generateComment` (source lines 24-39), split into the same local pieces the
source computes: `avg`, `highest`, `lowest`, `bullets`, `suggestions`, and
the final template concatenation.
-/

/-- `axes.reduce((acc, a) => acc + clamp(a.value), 0)` (source line 26). -/
def sumClamped (axes : List GAxis) : JSNum :=
  axes.foldl (fun acc a => jsAdd acc (clamp a.value)) (jint 0)

/-- Division of a JavaScript number by a list length.  `generateComment`
only divides by a positive length (the empty case returns early); the
length-0 branch is therefore unreachable there. -/
def jsDivNat : JSNum → Nat → JSNum
  | JSNum.nan, _ => JSNum.nan
  | JSNum.num _, 0 => JSNum.nan
  | JSNum.num q, (k+1) => JSNum.num ⟨q.n, q.d * ⟨k+1, k.succ_pos⟩⟩

/-- `(axes.reduce(...) / axes.length).toFixed(1)` (source line 26). -/
def avgStr (axes : List GAxis) : String :=
  toFixed1 (jsDivNat (sumClamped axes) axes.length)

/-- `axes.reduce((p, c) => (c.value > p.value ? c : p))` (source line 27):
a `reduce` without initial value is a left fold seeded with the head. -/
def highestAxis (a : GAxis) (rest : List GAxis) : GAxis :=
  rest.foldl (fun p c => if jsGtB c.value p.value then c else p) a

/-- `axes.reduce((p, c) => (c.value < p.value ? c : p))` (source line 28). -/
def lowestAxis (a : GAxis) (rest : List GAxis) : GAxis :=
  rest.foldl (fun p c => if jsLtB c.value p.value then c else p) a

/-- `phraseForValue` (source lines 16-22): the five-tier qualitative label;
with a `NaN` argument every `>=` test is false and the bottom tier results. -/
def phraseForValue (v : JSNum) : String :=
  if jsGeB v (jint 5) then "非常に優秀"
  else if jsGeB v (jint 4) then "良好"
  else if jsGeB v (jint 3) then "平均的"
  else if jsGeB v (jint 2) then "改善の余地"
  else "要強化"

/-- One bullet of the per-axis breakdown (source line 29). -/
def bulletLine (a : GAxis) : String :=
  "・" ++ a.label ++ ": " ++ numToString a.value ++ "（" ++ phraseForValue a.value ++ "）"

/-- `axes.map(...).join('\n')` (source line 29). -/
def bulletsStr (axes : List GAxis) : String := joinSep "\n" (axes.map bulletLine)

/-- One improvement suggestion (source line 30). -/
def suggestionLine (a : GAxis) : String :=
  "- 「" ++ a.label ++ "」向上のために、週1回の練習や確認を取り入れる。"

/-- `axes.filter((a) => a.value < 4).slice(0, 3).map(...).join('\n')`
(source line 30). -/
def suggestionsStr (axes : List GAxis) : String :=
  joinSep "\n" (((axes.filter (fun a => jsLtB a.value (jint 4))).take 3).map suggestionLine)

/-- The summary section of the template (source lines 33-35). -/
def summaryStr (a : GAxis) (rest : List GAxis) : String :=
  "【サマリー】\n平均スコアは" ++ avgStr (a :: rest) ++ "。特に「"
    ++ (highestAxis a rest).label ++ "」が強み（"
    ++ numToString (highestAxis a rest).value ++ "）。 一方で「"
    ++ (lowestAxis a rest).label ++ "」は相対的な弱点（"
    ++ numToString (lowestAxis a rest).value ++ "）。\n\n"

/-- Summary plus per-axis breakdown (source lines 33-36): everything of the
report before the suggestions section. -/
def commentHead (a : GAxis) (rest : List GAxis) : String :=
  summaryStr a rest ++ "【各項目】\n" ++ bulletsStr (a :: rest) ++ "\n\n"

/-- The suggestions section (source line 37): the truthiness test
`suggestions ? ... : ...` is false exactly on the empty string. -/
def suggestionsBlock (axes : List GAxis) : String :=
  if suggestionsStr axes = "" then "【次の一歩】\n現状維持でOK。強みをさらに伸ばしましょう。"
  else "【次の一歩】\n" ++ suggestionsStr axes ++ "\n"

/-- `generateComment` (source lines 24-39). -/
def generateComment : List GAxis → String
  | [] => ""
  | a :: rest => commentHead a rest ++ suggestionsBlock (a :: rest)

/-- `generateComment` as invoked by the app (source line 54): the store's
records are passed directly; the function's parameter type only exposes
`label` and `value`. -/
def generateCommentApp (axes : List Axis) : String :=
  generateComment (axes.map axisView)

/-!
The store operations (source lines 50-53).  `uid()` draws from ambient
randomness; the generated identifier is modelled as an explicit argument.
-/

/-- `addAxis` (source line 50): append a fresh axis with the default label
and value 3. -/
def addAxis (newId : String) (prev : List Axis) : List Axis :=
  prev ++ [⟨newId, "新規項目", jint 3⟩]

/-- `removeAxis` (source line 51): drop every axis whose id matches. -/
def removeAxis (i : String) (prev : List Axis) : List Axis :=
  prev.filter (fun a => a.id != i)

/-- `updateLabel` (source line 52). -/
def updateLabel (i newLabel : String) (prev : List Axis) : List Axis :=
  prev.map (fun a => if a.id == i then { a with label := newLabel } else a)

/-- `updateValue` (source line 53): store `clamp(value)` on the matching
axis. -/
def updateValue (i : String) (v : JSNum) (prev : List Axis) : List Axis :=
  prev.map (fun a => if a.id == i then { a with value := clamp v } else a)

/-- `DEFAULT_AXES` (source lines 8-14); the five random ids are modelled as
parameters. -/
def DEFAULT_AXES (i1 i2 i3 i4 i5 : String) : List Axis :=
  [⟨i1, "スピード", jint 3⟩, ⟨i2, "正確さ", jint 4⟩, ⟨i3, "創造性", jint 3⟩,
   ⟨i4, "継続力", jint 4⟩, ⟨i5, "協調性", jint 3⟩]

/-- A store mutation, tagged with the data the UI event supplies (for `add`,
the id that `uid()` produced). -/
inductive StoreOp where
  | add (newId : String)
  | remove (i : String)
  | relabel (i newLabel : String)
  | setValue (i : String) (v : JSNum)
deriving DecidableEq

/-- Apply one mutation to the store state. -/
def applyOp (s : List Axis) : StoreOp → List Axis
  | StoreOp.add newId => addAxis newId s
  | StoreOp.remove i => removeAxis i s
  | StoreOp.relabel i l => updateLabel i l s
  | StoreOp.setValue i v => updateValue i v s

/-- Apply a finite sequence of mutations, oldest first. -/
def applyOps (ops : List StoreOp) (s : List Axis) : List Axis :=
  ops.foldl applyOp s

/-- The value is an actual number lying in the closed range `[0, 5]`. -/
def inRange05B : JSNum → Bool
  | JSNum.nan => false
  | JSNum.num q => qleB ⟨0, 1⟩ q && qleB q ⟨5, 1⟩

/-- Every stored value is an actual number in `[0, 5]`. -/
def valuesIn05 (l : List Axis) : Prop := ∀ a ∈ l, inRange05B a.value = true

/-!
Helper lemmas about ranges and the store operations.
-/

theorem inRange05_iff (r : QJ) :
    inRange05B (JSNum.num r) = true ↔ (0 ≤ toQ r ∧ toQ r ≤ 5) := by
  show (qleB ⟨0, 1⟩ r && qleB r ⟨5, 1⟩) = true ↔ _
  rw [qleB_eq, qleB_eq, toQ_zero, toQ_five]
  simp

theorem inRange05_clamp (q : QJ) : inRange05B (clamp (JSNum.num q)) = true := by
  obtain ⟨r, hc, hr⟩ := toQ_clamp q
  rw [hc, inRange05_iff, hr]
  refine ⟨le_max_left _ _, max_le (by norm_num) (min_le_left _ _)⟩

/-- C9: for every numeric value `v`, `clamp(v, 0, 5)` lies in the closed
range `[0, 5]`, and `clamp` is idempotent on `v`. -/
theorem c9_clamp_range_idem (q : QJ) :
    inRange05B (clamp (JSNum.num q)) = true ∧
    clamp (clamp (JSNum.num q)) = clamp (JSNum.num q) :=
  ⟨inRange05_clamp q, clamp_clamp (JSNum.num q)⟩

/-- C6: `generateComment` applied to the empty sequence of axes returns the
empty string (and nothing else), rather than failing. -/
theorem c6_generateComment_empty : generateComment [] = "" := rfl

/-- C7: `generateComment` is deterministic and id-independent: it is a pure
function of the `label`/`value` view of the stored axes, so two stores that
agree on labels and values in order (whatever their `id` fields) produce the
same report. -/
theorem c7_id_independent (l1 l2 : List Axis)
    (h : l1.map axisView = l2.map axisView) :
    generateCommentApp l1 = generateCommentApp l2 := by
  unfold generateCommentApp
  rw [h]

/-- C7 witness: two singleton stores that differ only in the axis id produce
the same report. -/
theorem c7_witness :
    generateCommentApp [⟨"id-a", "Speed", jint 3⟩] =
      generateCommentApp [⟨"id-b", "Speed", jint 3⟩] :=
  c7_id_independent [⟨"id-a", "Speed", jint 3⟩] [⟨"id-b", "Speed", jint 3⟩] (by decide)

/-- C2 counterexample: `updateValue` with a `NaN` input stores `NaN` on the
matching axis — not 0 as the claim states — because `clamp` propagates `NaN`
(`Math.max(0, Math.min(5, NaN))` is `NaN`). -/
theorem c2_counterexample :
    updateValue "a" JSNum.nan [⟨"a", "L", jint 3⟩] = [⟨"a", "L", JSNum.nan⟩] ∧
    JSNum.nan ≠ jint 0 := by decide

/-- C2 (amended): `updateValue(id, v)` replaces the value of every axis whose
id matches with `clamp(v, 0, 5)` (so `-3` stores 0 and `99` stores 5) and is a
no-op when no axis has that id; but a `NaN` input is stored as `NaN` — the
coercion of non-numeric input to 0 happens at the call site, not inside
`updateValue`. -/
theorem c2_updateValue (i : String) (v : JSNum) (prev : List Axis) :
    clamp (jint (-3)) = jint 0 ∧ clamp (jint 99) = jint 5 ∧
    clamp JSNum.nan = JSNum.nan ∧
    updateValue i v prev =
      prev.map (fun a => if a.id = i then ⟨a.id, a.label, clamp v⟩ else a) ∧
    ((∀ a ∈ prev, a.id ≠ i) → updateValue i v prev = prev) := by
  refine ⟨by decide, by decide, rfl, ?_, ?_⟩
  · unfold updateValue
    apply List.map_congr_left
    intro a _
    by_cases h : a.id = i <;> simp [h]
  · intro h
    unfold updateValue
    have hid : prev.map (fun a => if a.id == i then { a with value := clamp v } else a) =
        prev.map id := by
      apply List.map_congr_left
      intro a ha
      simp [beq_iff_eq, h a ha]
    rw [hid, List.map_id]

/-- C2 witness: concrete instance of the amended theorem — updating an absent
id is a no-op. -/
theorem c2_witness :
    updateValue "b" (jint 7) [⟨"a", "L", jint 2⟩] = [⟨"a", "L", jint 2⟩] :=
  (c2_updateValue "b" (jint 7) [⟨"a", "L", jint 2⟩]).2.2.2.2 (by decide)

/-- C8: `add` appends exactly one new axis at the end with the default label
and value 3, leaving prior axes unchanged and in order; and `add` followed by
`remove` of the freshly generated id (fresh: not an id already in the store)
restores the prior collection. -/
theorem c8_add_remove (newId : String) (prev : List Axis)
    (h : newId ∉ prev.map Axis.id) :
    addAxis newId prev = prev ++ [⟨newId, "新規項目", jint 3⟩] ∧
    removeAxis newId (addAxis newId prev) = prev := by
  refine ⟨rfl, ?_⟩
  unfold removeAxis addAxis
  rw [List.filter_append]
  have h1 : prev.filter (fun a => a.id != newId) = prev := by
    rw [List.filter_eq_self]
    intro a ha
    have hne : a.id ≠ newId := fun he => h (he ▸ List.mem_map_of_mem Axis.id ha)
    simpa using hne
  have h2 : List.filter (fun a => a.id != newId)
      [(⟨newId, "新規項目", jint 3⟩ : Axis)] = [] := by simp
  rw [h1, h2, List.append_nil]

/-- C8 witness: concrete add-then-remove roundtrip. -/
theorem c8_witness :
    addAxis "x" [⟨"a", "Speed", jint 2⟩] =
      [⟨"a", "Speed", jint 2⟩, ⟨"x", "新規項目", jint 3⟩] ∧
    removeAxis "x" (addAxis "x" [⟨"a", "Speed", jint 2⟩]) = [⟨"a", "Speed", jint 2⟩] :=
  c8_add_remove "x" [⟨"a", "Speed", jint 2⟩] (by decide)

/-- The mutation's payload is an actual number (`updateValue` only; the other
operations carry no numeric input). -/
def opNumericB : StoreOp → Bool
  | StoreOp.setValue _ v => v != JSNum.nan
  | _ => true

theorem valuesIn05_applyOp (s : List Axis) (op : StoreOp)
    (hs : valuesIn05 s) (hop : opNumericB op = true) :
    valuesIn05 (applyOp s op) := by
  cases op with
  | add newId =>
    intro a ha
    rcases List.mem_append.mp ha with h | h
    · exact hs a h
    · rcases List.mem_singleton.mp h with rfl
      show inRange05B (jint 3) = true
      decide
  | remove i =>
    intro a ha
    exact hs a (List.mem_filter.mp ha).1
  | relabel i l =>
    intro a ha
    obtain ⟨b, hb, rfl⟩ := List.mem_map.mp ha
    have hv : (if b.id == i then { b with label := l } else b).value = b.value := by
      by_cases h : (b.id == i) = true
      · rw [if_pos h]
      · rw [if_neg h]
    rw [hv]
    exact hs b hb
  | setValue i v =>
    intro a ha
    obtain ⟨b, hb, rfl⟩ := List.mem_map.mp ha
    by_cases h : (b.id == i) = true
    · rw [if_pos h]
      show inRange05B (clamp v) = true
      have hnn : v ≠ JSNum.nan := by simpa [opNumericB] using hop
      cases v with
      | nan => exact absurd rfl hnn
      | num q => exact inRange05_clamp q
    · rw [if_neg h]
      exact hs b hb

theorem valuesIn05_applyOps (ops : List StoreOp) :
    ∀ s : List Axis, valuesIn05 s → (∀ op ∈ ops, opNumericB op = true) →
      valuesIn05 (applyOps ops s) := by
  induction ops with
  | nil => intro s hs _; exact hs
  | cons op rest ih =>
    intro s hs h
    show valuesIn05 (applyOps rest (applyOp s op))
    exact ih (applyOp s op)
      (valuesIn05_applyOp s op hs (h op (List.mem_cons_self op rest)))
      (fun o ho => h o (List.mem_cons_of_mem op ho))

/-- C3 counterexample: the claim fails for arbitrary inputs — passing `NaN`
to `updateValue` on an existing id stores `NaN`, which is outside `[0, 5]`
(`clamp` propagates `NaN`). -/
theorem c3_counterexample :
    ¬ valuesIn05 (applyOps [StoreOp.setValue "a" JSNum.nan]
        (DEFAULT_AXES "a" "b" "c" "d" "e")) := by
  intro h
  have hm := h ⟨"a", "スピード", JSNum.nan⟩ (by decide)
  exact absurd hm (by decide)

/-- C3 (amended): starting from the default collection, every stored value
lies in `[0, 5]` after any finite sequence of add / remove / updateLabel /
updateValue operations whose `updateValue` payloads are actual numbers
(non-`NaN`); a `NaN` payload is the one violation, stored verbatim. -/
theorem c3_invariant (i1 i2 i3 i4 i5 : String) (ops : List StoreOp)
    (h : ∀ op ∈ ops, opNumericB op = true) :
    valuesIn05 (applyOps ops (DEFAULT_AXES i1 i2 i3 i4 i5)) := by
  have hstart : valuesIn05 (DEFAULT_AXES i1 i2 i3 i4 i5) := by
    intro a ha
    simp only [DEFAULT_AXES, List.mem_cons, List.not_mem_nil, or_false] at ha
    rcases ha with rfl | rfl | rfl | rfl | rfl
    · show inRange05B (jint 3) = true; decide
    · show inRange05B (jint 4) = true; decide
    · show inRange05B (jint 3) = true; decide
    · show inRange05B (jint 4) = true; decide
    · show inRange05B (jint 3) = true; decide
  exact valuesIn05_applyOps ops _ hstart h

/-- C3 witness: a concrete operation sequence — clamped update, relabel, add,
remove — keeps every value in range. -/
theorem c3_witness :
    valuesIn05 (applyOps
      [StoreOp.setValue "a" (jint 99), StoreOp.relabel "b" "精度",
       StoreOp.add "f", StoreOp.remove "c"]
      (DEFAULT_AXES "a" "b" "c" "d" "e")) :=
  c3_invariant "a" "b" "c" "d" "e" _ (by decide)

/-!
The suggestions section: the filter on raw values coincides with the filter
on clamped values, and the truthiness test on the joined string coincides
with emptiness of the filtered list.
-/

theorem toQ_four : toQ ⟨4, 1⟩ = 4 := by rw [toQ_int]; norm_num

/-- Being below 4 is invariant under clamping to `[0, 5]`. -/
theorem jsLtB_clamp_four (v : JSNum) :
    jsLtB (clamp v) (jint 4) = jsLtB v (jint 4) := by
  cases v with
  | nan => rfl
  | num q =>
    obtain ⟨r, hc, hr⟩ := toQ_clamp q
    rw [hc]
    show qltB r ⟨4, 1⟩ = qltB q ⟨4, 1⟩
    rw [qltB_eq, qltB_eq, toQ_four, hr, decide_eq_decide]
    constructor
    · intro h
      rcases min_lt_iff.mp (max_lt_iff.mp h).2 with h5 | ht
      · exact absurd h5 (by norm_num)
      · exact ht
    · intro h
      exact max_lt_iff.mpr ⟨by norm_num, min_lt_iff.mpr (Or.inr h)⟩

theorem filter_clamp_eq (axes : List GAxis) :
    axes.filter (fun a => jsLtB (clamp a.value) (jint 4)) =
      axes.filter (fun a => jsLtB a.value (jint 4)) :=
  List.filter_congr (fun a _ => jsLtB_clamp_four a.value)

theorem str_ne_empty {s : String} (h : 0 < s.length) : s ≠ "" := by
  intro he
  rw [he] at h
  exact absurd h (by decide)

theorem suggestionLine_length (a : GAxis) : 0 < (suggestionLine a).length := by
  unfold suggestionLine
  rw [String.length_append, String.length_append]
  have h1 : ("- 「").length = 3 := by decide
  omega

theorem joinSep_length (sep x : String) (xs : List String) :
    x.length ≤ (joinSep sep (x :: xs)).length := by
  cases xs with
  | nil => exact le_refl _
  | cons y t =>
    show x.length ≤ (x ++ sep ++ joinSep sep (y :: t)).length
    rw [String.length_append, String.length_append]
    omega

theorem suggestionsStr_empty {axes : List GAxis}
    (h : axes.filter (fun a => jsLtB a.value (jint 4)) = []) :
    suggestionsStr axes = "" := by
  unfold suggestionsStr
  rw [h]
  rfl

theorem suggestionsStr_ne_empty {axes : List GAxis}
    (h : axes.filter (fun a => jsLtB a.value (jint 4)) ≠ []) :
    suggestionsStr axes ≠ "" := by
  unfold suggestionsStr
  obtain ⟨x, t, hxt⟩ : ∃ x t, axes.filter (fun a => jsLtB a.value (jint 4)) = x :: t := by
    cases hf : axes.filter (fun a => jsLtB a.value (jint 4)) with
    | nil => exact absurd hf h
    | cons x t => exact ⟨x, t, rfl⟩
  rw [hxt, List.take_succ_cons, List.map_cons]
  exact str_ne_empty (lt_of_lt_of_le (suggestionLine_length x) (joinSep_length _ _ _))

/-- C5: in the report for a non-empty sequence, the suggestions section holds
one fixed-template line (referencing the label) for each of the first at most
3 axes, in original order, whose clamped value is strictly below 4; when no
axis qualifies it holds the single fixed maintain-current-level message and
no per-axis line. -/
theorem c5_suggestions (a : GAxis) (rest : List GAxis) :
    ((a :: rest).filter (fun x => jsLtB (clamp x.value) (jint 4)) = [] →
      generateComment (a :: rest) =
        commentHead a rest ++ "【次の一歩】\n現状維持でOK。強みをさらに伸ばしましょう。") ∧
    ((a :: rest).filter (fun x => jsLtB (clamp x.value) (jint 4)) ≠ [] →
      generateComment (a :: rest) =
        commentHead a rest ++ "【次の一歩】\n"
          ++ joinSep "\n"
              ((((a :: rest).filter (fun x => jsLtB (clamp x.value) (jint 4))).take 3).map
                suggestionLine)
          ++ "\n") := by
  have hfe := filter_clamp_eq (a :: rest)
  constructor
  · intro h
    rw [hfe] at h
    show commentHead a rest ++ suggestionsBlock (a :: rest) = _
    unfold suggestionsBlock
    rw [if_pos (suggestionsStr_empty h)]
  · intro h
    rw [hfe] at h
    show commentHead a rest ++ suggestionsBlock (a :: rest) = _
    unfold suggestionsBlock
    rw [if_neg (suggestionsStr_ne_empty h), hfe]
    rw [← String.append_assoc, ← String.append_assoc]
    rfl

/-- C5 witness: a single axis at value 5 gets the maintain message. -/
theorem c5_witness :
    generateComment [⟨"A", jint 5⟩] =
      commentHead ⟨"A", jint 5⟩ [] ++ "【次の一歩】\n現状維持でOK。強みをさらに伸ばしましょう。" :=
  (c5_suggestions ⟨"A", jint 5⟩ []).1 (by decide)

theorem getLast?_data_append (s t : String) (h : t.data ≠ []) :
    (s ++ t).data.getLast? = t.data.getLast? := by
  rw [String.data_append]
  exact List.getLast?_append_of_ne_nil _ h

/-- C10: the two suggestion branches end differently — with at least one axis
value below 4 the report ends in a newline; with none (maintain branch) it
ends in `。`, not a newline. -/
theorem c10_trailing_newline (a : GAxis) (rest : List GAxis) :
    ((∃ x ∈ a :: rest, jsLtB x.value (jint 4) = true) →
      (generateComment (a :: rest)).data.getLast? = some '\n') ∧
    ((∀ x ∈ a :: rest, jsLtB x.value (jint 4) = false) →
      (generateComment (a :: rest)).data.getLast? = some '。' ∧
      (generateComment (a :: rest)).data.getLast? ≠ some '\n') := by
  constructor
  · rintro ⟨x, hx, hlt⟩
    have hne : (a :: rest).filter (fun y => jsLtB y.value (jint 4)) ≠ [] := by
      intro hnil
      rw [List.filter_eq_nil_iff] at hnil
      exact (hnil x hx) hlt
    show ((commentHead a rest ++ suggestionsBlock (a :: rest)).data.getLast? = _)
    unfold suggestionsBlock
    rw [if_neg (suggestionsStr_ne_empty hne)]
    rw [← String.append_assoc]
    rw [getLast?_data_append _ "\n" (by decide)]
    decide
  · intro h
    have hnil : (a :: rest).filter (fun y => jsLtB y.value (jint 4)) = [] := by
      rw [List.filter_eq_nil_iff]
      intro y hy
      rw [h y hy]
      exact Bool.false_ne_true
    have hgen : generateComment (a :: rest) =
        commentHead a rest ++ "【次の一歩】\n現状維持でOK。強みをさらに伸ばしましょう。" := by
      show commentHead a rest ++ suggestionsBlock (a :: rest) = _
      unfold suggestionsBlock
      rw [if_pos (suggestionsStr_empty hnil)]
    rw [hgen, getLast?_data_append _ _ (by decide)]
    exact ⟨by decide, by decide⟩

/-- C10 witness: a single axis below 4 yields a report ending in a newline. -/
theorem c10_witness :
    (generateComment [⟨"A", jint 3⟩]).data.getLast? = some '\n' :=
  (c10_trailing_newline ⟨"A", jint 3⟩ []).1 ⟨⟨"A", jint 3⟩, by decide, by decide⟩

/-!
Highest / lowest selection.  `reduce((p, c) => c.value > p.value ? c : p)`
keeps the first occurrence of the maximum; we characterise it as `find?` of
the elements attaining the maximum.  The rational key function `k` abstracts
over the two directions (`vq` for the maximum, `-vq` for the minimum).
-/

/-- The rational value of an axis (`NaN` mapped to a junk value; every use
below is guarded by a no-`NaN` hypothesis). -/
def vq (a : GAxis) : ℚ :=
  match a.value with
  | JSNum.nan => 0
  | JSNum.num q => toQ q

/-- The fold the source's `reduce` performs, with the comparison lifted to an
arbitrary rational key. -/
def pickBy (k : GAxis → ℚ) (a : GAxis) (t : List GAxis) : GAxis :=
  t.foldl (fun p c => if k p < k c then c else p) a

/-- Running maximum of the key over a list, seeded with `m`. -/
def foldMaxBy (k : GAxis → ℚ) (m : ℚ) (t : List GAxis) : ℚ :=
  t.foldl (fun acc x => max acc (k x)) m

theorem le_foldMaxBy (k : GAxis → ℚ) :
    ∀ (t : List GAxis) (m : ℚ), m ≤ foldMaxBy k m t := by
  intro t
  induction t with
  | nil => intro m; exact le_refl m
  | cons x t ih =>
    intro m
    show m ≤ foldMaxBy k (max m (k x)) t
    exact le_trans (le_max_left m (k x)) (ih (max m (k x)))

theorem foldMaxBy_le_iff (k : GAxis → ℚ) :
    ∀ (t : List GAxis) (m z : ℚ),
      foldMaxBy k m t ≤ z ↔ (m ≤ z ∧ ∀ x ∈ t, k x ≤ z) := by
  intro t
  induction t with
  | nil =>
    intro m z
    simp [foldMaxBy]
  | cons x t ih =>
    intro m z
    show foldMaxBy k (max m (k x)) t ≤ z ↔ _
    rw [ih]
    constructor
    · rintro ⟨hmz, hall⟩
      rcases max_le_iff.mp hmz with ⟨h1, h2⟩
      refine ⟨h1, fun y hy => ?_⟩
      rcases List.mem_cons.mp hy with rfl | hy2
      · exact h2
      · exact hall y hy2
    · rintro ⟨h1, hall⟩
      exact ⟨max_le_iff.mpr ⟨h1, hall x (List.mem_cons_self x t)⟩,
        fun y hy => hall y (List.mem_cons_of_mem x hy)⟩

/-- The fold keeps the first element attaining the running maximum. -/
theorem find_pickBy (k : GAxis → ℚ) :
    ∀ (t : List GAxis) (a : GAxis),
      (a :: t).find? (fun x => decide (foldMaxBy k (k a) t ≤ k x)) =
        some (pickBy k a t) := by
  intro t
  induction t with
  | nil =>
    intro a
    exact List.find?_cons_of_pos _ (decide_eq_true (le_refl (k a)))
  | cons b t ih =>
    intro a
    by_cases hab : k a < k b
    · have hstep : pickBy k a (b :: t) = pickBy k b t := by
        show List.foldl _ (if k a < k b then b else a) t = _
        rw [if_pos hab]
        rfl
      have hM : foldMaxBy k (k a) (b :: t) = foldMaxBy k (k b) t := by
        show foldMaxBy k (max (k a) (k b)) t = _
        rw [max_eq_right hab.le]
      simp only [hstep, hM]
      have h1 : List.find? (fun x => decide (foldMaxBy k (k b) t ≤ k x)) (a :: b :: t) =
          List.find? (fun x => decide (foldMaxBy k (k b) t ≤ k x)) (b :: t) :=
        List.find?_cons_of_neg _ (by
          simp only [decide_eq_true_eq]
          intro hle
          exact absurd (le_trans (le_foldMaxBy k t (k b)) hle) (not_le.mpr hab))
      rw [h1]
      exact ih b
    · have hba : k b ≤ k a := not_lt.mp hab
      have hstep : pickBy k a (b :: t) = pickBy k a t := by
        show List.foldl _ (if k a < k b then b else a) t = _
        rw [if_neg hab]
        rfl
      have hM : foldMaxBy k (k a) (b :: t) = foldMaxBy k (k a) t := by
        show foldMaxBy k (max (k a) (k b)) t = _
        rw [max_eq_left hba]
      simp only [hstep, hM]
      by_cases hMa : foldMaxBy k (k a) t ≤ k a
      · have h1 : List.find? (fun x => decide (foldMaxBy k (k a) t ≤ k x)) (a :: b :: t) =
            some a :=
          List.find?_cons_of_pos _ (decide_eq_true hMa)
        have h2 : List.find? (fun x => decide (foldMaxBy k (k a) t ≤ k x)) (a :: t) =
            some a :=
          List.find?_cons_of_pos _ (decide_eq_true hMa)
        rw [h1, ← ih a, h2]
      · have h1 : List.find? (fun x => decide (foldMaxBy k (k a) t ≤ k x)) (a :: b :: t) =
            List.find? (fun x => decide (foldMaxBy k (k a) t ≤ k x)) (b :: t) :=
          List.find?_cons_of_neg _ (by simpa using hMa)
        have h2 : List.find? (fun x => decide (foldMaxBy k (k a) t ≤ k x)) (b :: t) =
            List.find? (fun x => decide (foldMaxBy k (k a) t ≤ k x)) t :=
          List.find?_cons_of_neg _ (by
            simp only [decide_eq_true_eq]
            intro hle
            exact hMa (le_trans hle hba))
        have h3 : List.find? (fun x => decide (foldMaxBy k (k a) t ≤ k x)) (a :: t) =
            List.find? (fun x => decide (foldMaxBy k (k a) t ≤ k x)) t :=
          List.find?_cons_of_neg _ (by simpa using hMa)
        rw [h1, h2, ← h3]
        exact ih a

/-- The fold returns the seed when every key equals the seed's key. -/
theorem pickBy_tied (k : GAxis → ℚ) :
    ∀ (t : List GAxis) (a : GAxis), (∀ x ∈ t, k x = k a) → pickBy k a t = a := by
  intro t
  induction t with
  | nil => intro a _; rfl
  | cons b t ih =>
    intro a htied
    show List.foldl _ (if k a < k b then b else a) t = a
    rw [htied b (List.mem_cons_self b t), if_neg (lt_irrefl (k a))]
    exact ih a (fun x hx => htied x (List.mem_cons_of_mem b hx))

theorem exists_num_of_ne_nan {v : JSNum} (h : v ≠ JSNum.nan) :
    ∃ q : QJ, v = JSNum.num q := by
  cases v with
  | nan => exact absurd rfl h
  | num q => exact ⟨q, rfl⟩

theorem jsLeB_eq_vq {y x : GAxis} (hy : y.value ≠ JSNum.nan)
    (hx : x.value ≠ JSNum.nan) :
    jsLeB y.value x.value = decide (vq y ≤ vq x) := by
  obtain ⟨qy, hqy⟩ := exists_num_of_ne_nan hy
  obtain ⟨qx, hqx⟩ := exists_num_of_ne_nan hx
  have hvy : vq y = toQ qy := by unfold vq; rw [hqy]
  have hvx : vq x = toQ qx := by unfold vq; rw [hqx]
  rw [hvy, hvx, hqy, hqx]
  show qleB qy qx = _
  rw [qleB_eq]

/-- Modelled from the spec: `x` attains the maximum of the axis values
(ties included), phrased with the source's `>=`-free comparison `jsLeB`. -/
def attainsMax (axes : List GAxis) (x : GAxis) : Bool :=
  axes.all (fun y => jsLeB y.value x.value)

/-- Modelled from the spec: `x` attains the minimum of the axis values. -/
def attainsMin (axes : List GAxis) (x : GAxis) : Bool :=
  axes.all (fun y => jsLeB x.value y.value)

/-- Modelled from the spec: the first axis in iteration order achieving the
maximum of the (raw) values. -/
def specFirstMax (axes : List GAxis) : Option GAxis :=
  axes.find? (attainsMax axes)

/-- Modelled from the spec: the first axis in iteration order achieving the
minimum of the (raw) values. -/
def specFirstMin (axes : List GAxis) : Option GAxis :=
  axes.find? (attainsMin axes)

/-- Modelled from the spec (the claim as frozen): `x` attains the maximum of
the clamped values. -/
def attainsMaxClamped (axes : List GAxis) (x : GAxis) : Bool :=
  axes.all (fun y => jsLeB (clamp y.value) (clamp x.value))

/-- Modelled from the spec (the claim as frozen): the first axis achieving
the maximum of the clamped values. -/
def specFirstMaxClamped (axes : List GAxis) : Option GAxis :=
  axes.find? (attainsMaxClamped axes)

theorem attainsMax_eq (a : GAxis) (t : List GAxis) (x : GAxis)
    (hx : x.value ≠ JSNum.nan) (h : ∀ y ∈ a :: t, y.value ≠ JSNum.nan) :
    attainsMax (a :: t) x = decide (foldMaxBy vq (vq a) t ≤ vq x) := by
  rw [Bool.eq_iff_iff]
  unfold attainsMax
  rw [List.all_eq_true, decide_eq_true_eq, foldMaxBy_le_iff]
  constructor
  · intro hall
    constructor
    · have hh := hall a (List.mem_cons_self a t)
      rw [jsLeB_eq_vq (h a (List.mem_cons_self a t)) hx, decide_eq_true_eq] at hh
      exact hh
    · intro y hy
      have hh := hall y (List.mem_cons_of_mem a hy)
      rw [jsLeB_eq_vq (h y (List.mem_cons_of_mem a hy)) hx, decide_eq_true_eq] at hh
      exact hh
  · rintro ⟨h1, h2⟩ y hy
    rw [jsLeB_eq_vq (h y hy) hx, decide_eq_true_eq]
    rcases List.mem_cons.mp hy with rfl | hy2
    · exact h1
    · exact h2 y hy2

theorem attainsMin_eq (a : GAxis) (t : List GAxis) (x : GAxis)
    (hx : x.value ≠ JSNum.nan) (h : ∀ y ∈ a :: t, y.value ≠ JSNum.nan) :
    attainsMin (a :: t) x =
      decide (foldMaxBy (fun z => -vq z) (-vq a) t ≤ -vq x) := by
  rw [Bool.eq_iff_iff]
  unfold attainsMin
  rw [List.all_eq_true, decide_eq_true_eq, foldMaxBy_le_iff]
  constructor
  · intro hall
    constructor
    · have hh := hall a (List.mem_cons_self a t)
      rw [jsLeB_eq_vq hx (h a (List.mem_cons_self a t)), decide_eq_true_eq] at hh
      exact neg_le_neg hh
    · intro y hy
      have hh := hall y (List.mem_cons_of_mem a hy)
      rw [jsLeB_eq_vq hx (h y (List.mem_cons_of_mem a hy)), decide_eq_true_eq] at hh
      exact neg_le_neg hh
  · rintro ⟨h1, h2⟩ y hy
    rw [jsLeB_eq_vq hx (h y hy), decide_eq_true_eq]
    rcases List.mem_cons.mp hy with rfl | hy2
    · exact neg_le_neg_iff.mp h1
    · exact neg_le_neg_iff.mp (h2 y hy2)

theorem find?_congr_mem {p q : GAxis → Bool} :
    ∀ l : List GAxis, (∀ x ∈ l, p x = q x) → l.find? p = l.find? q := by
  intro l
  induction l with
  | nil => intro _; rfl
  | cons a t ih =>
    intro h
    rw [List.find?_cons, List.find?_cons, h a (List.mem_cons_self a t)]
    cases hqa : q a with
    | true => rfl
    | false => exact ih (fun x hx => h x (List.mem_cons_of_mem a hx))

theorem highestAxis_eq_pickBy :
    ∀ (t : List GAxis) (a : GAxis), a.value ≠ JSNum.nan →
      (∀ x ∈ t, x.value ≠ JSNum.nan) → highestAxis a t = pickBy vq a t := by
  intro t
  induction t with
  | nil => intro a _ _; rfl
  | cons b t ih =>
    intro a ha hbt
    have hb : b.value ≠ JSNum.nan := hbt b (List.mem_cons_self b t)
    obtain ⟨qa, hqa⟩ := exists_num_of_ne_nan ha
    obtain ⟨qb, hqb⟩ := exists_num_of_ne_nan hb
    have hva : vq a = toQ qa := by unfold vq; rw [hqa]
    have hvb : vq b = toQ qb := by unfold vq; rw [hqb]
    have hcond : jsGtB b.value a.value = decide (vq a < vq b) := by
      rw [hva, hvb, hqa, hqb]
      show qltB qa qb = _
      rw [qltB_eq]
    show List.foldl _ (if jsGtB b.value a.value then b else a) t = _
    rw [hcond]
    by_cases h : vq a < vq b
    · rw [if_pos (decide_eq_true h)]
      have hgoal : pickBy vq a (b :: t) = pickBy vq b t := by
        show List.foldl _ (if vq a < vq b then b else a) t = _
        rw [if_pos h]
        rfl
      rw [hgoal]
      exact ih b hb (fun x hx => hbt x (List.mem_cons_of_mem b hx))
    · rw [if_neg (by simpa using h)]
      have hgoal : pickBy vq a (b :: t) = pickBy vq a t := by
        show List.foldl _ (if vq a < vq b then b else a) t = _
        rw [if_neg h]
        rfl
      rw [hgoal]
      exact ih a ha (fun x hx => hbt x (List.mem_cons_of_mem b hx))

theorem lowestAxis_eq_pickBy :
    ∀ (t : List GAxis) (a : GAxis), a.value ≠ JSNum.nan →
      (∀ x ∈ t, x.value ≠ JSNum.nan) →
      lowestAxis a t = pickBy (fun z => -vq z) a t := by
  intro t
  induction t with
  | nil => intro a _ _; rfl
  | cons b t ih =>
    intro a ha hbt
    have hb : b.value ≠ JSNum.nan := hbt b (List.mem_cons_self b t)
    obtain ⟨qa, hqa⟩ := exists_num_of_ne_nan ha
    obtain ⟨qb, hqb⟩ := exists_num_of_ne_nan hb
    have hva : vq a = toQ qa := by unfold vq; rw [hqa]
    have hvb : vq b = toQ qb := by unfold vq; rw [hqb]
    have hcond : jsLtB b.value a.value = decide (-vq a < -vq b) := by
      rw [hva, hvb, hqa, hqb]
      show qltB qb qa = _
      rw [qltB_eq, decide_eq_decide]
      exact Iff.symm (neg_lt_neg_iff)
    show List.foldl _ (if jsLtB b.value a.value then b else a) t = _
    rw [hcond]
    by_cases h : -vq a < -vq b
    · rw [if_pos (decide_eq_true h)]
      have hgoal : pickBy (fun z => -vq z) a (b :: t) = pickBy (fun z => -vq z) b t := by
        show List.foldl _ (if -vq a < -vq b then b else a) t = _
        rw [if_pos h]
        rfl
      rw [hgoal]
      exact ih b hb (fun x hx => hbt x (List.mem_cons_of_mem b hx))
    · rw [if_neg (by simpa using h)]
      have hgoal : pickBy (fun z => -vq z) a (b :: t) = pickBy (fun z => -vq z) a t := by
        show List.foldl _ (if -vq a < -vq b then b else a) t = _
        rw [if_neg h]
        rfl
      rw [hgoal]
      exact ih a ha (fun x hx => hbt x (List.mem_cons_of_mem b hx))

/-- C4 counterexample: with axes `A` (value 5) and `B` (value 7) the clamped
values tie at 5, so the claim ("first axis attaining the maximum of the
clamped values") requires `A`; the code compares raw values and selects `B`. -/
theorem c4_counterexample :
    specFirstMaxClamped [⟨"A", jint 5⟩, ⟨"B", jint 7⟩] = some ⟨"A", jint 5⟩ ∧
    highestAxis ⟨"A", jint 5⟩ [⟨"B", jint 7⟩] = ⟨"B", jint 7⟩ ∧
    (⟨"B", jint 7⟩ : GAxis) ≠ ⟨"A", jint 5⟩ := by decide

/-- C4 (amended): for every non-empty sequence of axes with actual (non-NaN)
numeric values, `generateComment`'s `highest` is the first axis in iteration
order attaining the maximum of the **raw** values, and `lowest` the first
attaining the minimum of the raw values (ties resolve to the earliest axis);
when all axes are tied both resolve to the same first axis. -/
theorem c4_first_extremes (a : GAxis) (rest : List GAxis)
    (h : ∀ x ∈ a :: rest, x.value ≠ JSNum.nan) :
    specFirstMax (a :: rest) = some (highestAxis a rest) ∧
    specFirstMin (a :: rest) = some (lowestAxis a rest) ∧
    ((∀ x ∈ rest, vq x = vq a) →
      highestAxis a rest = a ∧ lowestAxis a rest = a) := by
  have ha : a.value ≠ JSNum.nan := h a (List.mem_cons_self a rest)
  have hrest : ∀ x ∈ rest, x.value ≠ JSNum.nan :=
    fun x hx => h x (List.mem_cons_of_mem a hx)
  have hH := highestAxis_eq_pickBy rest a ha hrest
  have hL := lowestAxis_eq_pickBy rest a ha hrest
  have hmax : specFirstMax (a :: rest) = some (pickBy vq a rest) := by
    unfold specFirstMax
    rw [find?_congr_mem (a :: rest) (fun x hx => attainsMax_eq a rest x (h x hx) h)]
    exact find_pickBy vq rest a
  have hmin : specFirstMin (a :: rest) = some (pickBy (fun z => -vq z) a rest) := by
    unfold specFirstMin
    rw [find?_congr_mem (a :: rest) (fun x hx => attainsMin_eq a rest x (h x hx) h)]
    exact find_pickBy (fun z => -vq z) rest a
  refine ⟨by rw [hmax, hH], by rw [hmin, hL], ?_⟩
  intro htied
  constructor
  · rw [hH]
    exact pickBy_tied vq rest a htied
  · rw [hL]
    exact pickBy_tied (fun z => -vq z) rest a
      (fun x hx => by show -vq x = -vq a; rw [htied x hx])

/-- C4 witness: concrete instance of the amended theorem — `highest` is the
first axis attaining the raw maximum, `lowest` the first attaining the raw
minimum. -/
theorem c4_witness :
    specFirstMax [⟨"Speed", jint 3⟩, ⟨"Accuracy", jint 4⟩] =
      some (highestAxis ⟨"Speed", jint 3⟩ [⟨"Accuracy", jint 4⟩]) ∧
    specFirstMin [⟨"Speed", jint 3⟩, ⟨"Accuracy", jint 4⟩] =
      some (lowestAxis ⟨"Speed", jint 3⟩ [⟨"Accuracy", jint 4⟩]) ∧
    ((∀ x ∈ [(⟨"Accuracy", jint 4⟩ : GAxis)], vq x = vq (⟨"Speed", jint 3⟩ : GAxis)) →
      highestAxis ⟨"Speed", jint 3⟩ [⟨"Accuracy", jint 4⟩] = ⟨"Speed", jint 3⟩ ∧
      lowestAxis ⟨"Speed", jint 3⟩ [⟨"Accuracy", jint 4⟩] = ⟨"Speed", jint 3⟩) :=
  c4_first_extremes ⟨"Speed", jint 3⟩ [⟨"Accuracy", jint 4⟩] (by decide)

/-!
Re-clamping the input of `generateComment`.  Only the average is computed
from clamped values; the qualitative tier and the suggestion filter happen to
be clamp-invariant as well, but the displayed numeric values and the
highest/lowest selection read the raw values.
-/

/-- An axis with its value re-clamped. -/
def clampAxis (a : GAxis) : GAxis := ⟨a.label, clamp a.value⟩

theorem sumClamped_map_clamp (axes : List GAxis) :
    sumClamped (axes.map clampAxis) = sumClamped axes := by
  unfold sumClamped
  rw [List.foldl_map]
  have hf : (fun (acc : JSNum) (x : GAxis) => jsAdd acc (clamp (clampAxis x).value)) =
      (fun (acc : JSNum) (x : GAxis) => jsAdd acc (clamp x.value)) := by
    funext acc x
    rw [show (clampAxis x).value = clamp x.value from rfl, clamp_clamp]
  rw [hf]

theorem avgStr_map_clamp (axes : List GAxis) :
    avgStr (axes.map clampAxis) = avgStr axes := by
  unfold avgStr
  rw [List.length_map, sumClamped_map_clamp]

theorem ge_clamp_iff (k tq : ℚ) (hk0 : 0 < k) (hk5 : k ≤ 5) :
    k ≤ max 0 (min 5 tq) ↔ k ≤ tq := by
  constructor
  · intro h
    rcases le_max_iff.mp h with h0 | hm
    · exact absurd h0 (not_le.mpr hk0)
    · exact (le_min_iff.mp hm).2
  · intro h
    exact le_max_iff.mpr (Or.inr (le_min_iff.mpr ⟨hk5, h⟩))

theorem jsGeB_clamp (q : QJ) (k : Int) (hk0 : (0 : ℚ) < (k : ℚ))
    (hk5 : ((k : ℚ) : ℚ) ≤ 5) :
    jsGeB (clamp (JSNum.num q)) (jint k) = jsGeB (JSNum.num q) (jint k) := by
  obtain ⟨r, hc, hr⟩ := toQ_clamp q
  rw [hc]
  show qleB ⟨k, 1⟩ r = qleB ⟨k, 1⟩ q
  rw [qleB_eq, qleB_eq, toQ_int, hr, decide_eq_decide]
  exact ge_clamp_iff (k : ℚ) (toQ q) hk0 hk5

theorem phraseForValue_clamp (v : JSNum) :
    phraseForValue (clamp v) = phraseForValue v := by
  cases v with
  | nan => rfl
  | num q =>
    unfold phraseForValue
    rw [jsGeB_clamp q 5 (by norm_num) (by norm_num),
        jsGeB_clamp q 4 (by norm_num) (by norm_num),
        jsGeB_clamp q 3 (by norm_num) (by norm_num),
        jsGeB_clamp q 2 (by norm_num) (by norm_num)]

theorem suggestionsStr_map_clamp (axes : List GAxis) :
    suggestionsStr (axes.map clampAxis) = suggestionsStr axes := by
  unfold suggestionsStr
  rw [List.filter_map]
  have hfil : axes.filter ((fun a => jsLtB a.value (jint 4)) ∘ clampAxis) =
      axes.filter (fun a => jsLtB a.value (jint 4)) :=
    List.filter_congr (fun a _ => jsLtB_clamp_four a.value)
  rw [hfil, List.map_take, List.map_map]
  have hline : suggestionLine ∘ clampAxis = suggestionLine := funext fun a => rfl
  rw [hline, List.map_take]

/-- C1 counterexample: for the single axis `Speed` with value 7,
`generateComment` on the raw input differs from `generateComment` on the
re-clamped input — the summary and the bullet line display the raw value 7
rather than the clamped 5, so the output is not invariant under re-clamping. -/
theorem c1_counterexample :
    generateComment [⟨"Speed", jint 7⟩] ≠
      generateComment (List.map clampAxis [⟨"Speed", jint 7⟩]) := by decide

/-- C1 (amended): `generateComment` re-clamps only inside the average — the
average (and, incidentally, the qualitative tier of each axis and the
suggestion filter) agree between the raw and the re-clamped input, but the
displayed values and the highest/lowest selection read raw values, so the
full output is not invariant under re-clamping. -/
theorem c1_avg_clamp_invariant (axes : List GAxis) :
    avgStr (axes.map clampAxis) = avgStr axes ∧
    (∀ v : JSNum, phraseForValue (clamp v) = phraseForValue v) ∧
    suggestionsStr (axes.map clampAxis) = suggestionsStr axes :=
  ⟨avgStr_map_clamp axes, phraseForValue_clamp, suggestionsStr_map_clamp axes⟩
